import Mathlib

/-!
Verification of the prediction-market trading pipeline (Rust sources under
`src/`) against its natural-language specification. Prices, sizes and volumes
(`f64` in the source) are embedded as rationals `ℚ`; monotonic instants
(`std::time::Instant`) as `Nat`; fallible operations as `Option`. Concurrent
map state (`DashMap`) is embedded as a pure function `MarketKey → Option
MarketState`, with updates as explicit state passing.
-/

/-- Venue enum from `src/market_data/types.rs`. -/
inductive Venue
  | Polymarket
  | Kalshi
deriving DecidableEq

/-- Side enum from `src/market_data/types.rs`. -/
inductive Side
  | Buy
  | Sell
deriving DecidableEq

/-- MarketEventKind from `src/market_data/types.rs` (f64 fields as ℚ). -/
inductive MarketEventKind
  | Trade (price : ℚ) (size : ℚ) (side : Side)
  | TopOfBook (bid_price : ℚ) (bid_size : ℚ) (ask_price : ℚ) (ask_size : ℚ)
  | Heartbeat
  | PriceChange
deriving DecidableEq

/-- MarketEvent from `src/market_data/types.rs`, restricted to the fields the
polymarket adapter constructs (the adapter's struct literal in
`src/market_data/adapters/polymarket.rs` sets exactly these; wall-clock
`SystemTime` timestamps are embedded as `Option Nat`). -/
structure MarketEvent where
  venue : Venue
  kind : MarketEventKind
  market_id : String
  ts_exchange_ms : Option Nat
  ts_receive_ms : Option Nat
  volume24h : Option ℚ
  last_trade_price : Option ℚ
  liquidity : Option ℚ
  best_bid : Option ℚ
  best_ask : Option ℚ
deriving DecidableEq

/-- MarketState from `src/state/market.rs`: lightweight snapshot of the latest
market data. -/
structure MarketState where
  best_bid : Option ℚ
  best_ask : Option ℚ
  volume24h : Option ℚ
deriving DecidableEq

/-- MarketState::merge from `src/state/market.rs`: only overwrites fields that
are `Some` in `update`; leaves others unchanged. The Rust method mutates
`self`; here the merged state is returned. -/
def MarketState.merge (s update : MarketState) : MarketState :=
  { best_bid := if update.best_bid.isSome then update.best_bid else s.best_bid
    best_ask := if update.best_ask.isSome then update.best_ask else s.best_ask
    volume24h := if update.volume24h.isSome then update.volume24h else s.volume24h }

/-- MarketKey from `src/state/market_cache.rs`: a tuple struct of a venue and a
token-id string. -/
abbrev MarketKey := Venue × String

/-- MarketCache from `src/state/market_cache.rs`, embedded as its abstract map
contents: the DashMap becomes a function from keys to optional states. -/
def MarketCache := MarketKey → Option MarketState

/-- MarketCache::new: the empty cache. -/
def emptyCache : MarketCache := fun _ => none

/-- MarketCache::update_market_state from `src/state/market_cache.rs`:
wholesale insert (replace) of the entry for `key`. -/
def MarketCache.update_market_state (c : MarketCache) (key : MarketKey)
    (state : MarketState) : MarketCache :=
  fun k => if k = key then some state else c k

/-- MarketCache::update_partial from `src/state/market_cache.rs` (named
updatePartial here): merge a partial update into an existing entry, or insert
it as-is if none exists. The free function `insert` in the same file forwards
to this method. -/
def MarketCache.updatePartial (c : MarketCache) (key : MarketKey)
    (update : MarketState) : MarketCache :=
  fun k =>
    if k = key then
      some (match c key with
        | some existing => existing.merge update
        | none => update)
    else c k

/-- MarketCache::get_market_state from `src/state/market_cache.rs`. -/
def MarketCache.get_market_state (c : MarketCache) (k : MarketKey) :
    Option MarketState :=
  c k

/-- The market worker's event loop from `src/market_data/market_worker.rs`
applied to a whole list of projected events: each `(key, partial state)` pair
is merged into the cache through `insert` = `update_partial`. -/
def applyEvents : List (MarketKey × MarketState) → MarketCache → MarketCache
  | [], c => c
  | e :: es, c => applyEvents es (c.updatePartial e.1 e.2)

/-- The partial states of the events addressed to key `k`, oldest first. -/
def statesFor (k : MarketKey) (events : List (MarketKey × MarketState)) :
    List MarketState :=
  (events.filter (fun e => decide (e.1 = k))).map Prod.snd

/-- The field value of the most recent update in which the field `f` was
present (`none` when no update carried it): later list elements are more
recent and take precedence. -/
def lastPresent (f : MarketState → Option ℚ) : List MarketState → Option ℚ
  | [] => none
  | u :: us => (lastPresent f us).orElse (fun _ => f u)

/-- Folding a list of partial updates into an optional existing entry, the way
repeated updatePartial calls on one key do: the first update of a missing
entry is inserted as-is, later ones are merged. -/
def mergeInto : Option MarketState → List MarketState → Option MarketState
  | acc, [] => acc
  | some st, u :: us => mergeInto (some (st.merge u)) us
  | none, u :: us => mergeInto (some u) us

/-- Merging a list of updates into an existing state, left to right. -/
def mergeAll (st : MarketState) : List MarketState → MarketState
  | [] => st
  | u :: us => mergeAll (st.merge u) us

lemma mergeInto_nil (acc : Option MarketState) : mergeInto acc [] = acc := by
  cases acc <;> rfl

lemma mergeInto_some (us : List MarketState) (st : MarketState) :
    mergeInto (some st) us = some (mergeAll st us) := by
  induction us generalizing st with
  | nil => rfl
  | cons u us ih => simp [mergeInto, mergeAll, ih]

lemma mergeAll_field (f : MarketState → Option ℚ)
    (hf : ∀ s u, f (s.merge u) = (f u).orElse (fun _ => f s)) :
    ∀ (us : List MarketState) (st : MarketState),
      f (mergeAll st us) = (lastPresent f us).orElse (fun _ => f st) := by
  intro us
  induction us with
  | nil => intro st; simp [mergeAll, lastPresent]
  | cons u us ih =>
    intro st
    show f (mergeAll (st.merge u) us) = _
    rw [ih, hf]
    cases hl : lastPresent f us <;> cases h : f u <;>
      simp [lastPresent, Option.orElse, h, hl]

lemma merge_bid (s u : MarketState) :
    (s.merge u).best_bid = (u.best_bid).orElse (fun _ => s.best_bid) := by
  cases h : u.best_bid <;> simp [MarketState.merge, Option.orElse, h]

lemma merge_ask (s u : MarketState) :
    (s.merge u).best_ask = (u.best_ask).orElse (fun _ => s.best_ask) := by
  cases h : u.best_ask <;> simp [MarketState.merge, Option.orElse, h]

lemma merge_vol (s u : MarketState) :
    (s.merge u).volume24h = (u.volume24h).orElse (fun _ => s.volume24h) := by
  cases h : u.volume24h <;> simp [MarketState.merge, Option.orElse, h]

lemma applyEvents_get (es : List (MarketKey × MarketState)) (c : MarketCache)
    (k : MarketKey) :
    applyEvents es c k = mergeInto (c k) (statesFor k es) := by
  induction es generalizing c with
  | nil => simp [applyEvents, statesFor, mergeInto_nil]
  | cons e es ih =>
    show applyEvents es (c.updatePartial e.1 e.2) k = _
    rw [ih]
    by_cases h : e.1 = k
    · subst h
      have h1 : (c.updatePartial e.1 e.2) e.1 =
          some (match c e.1 with
            | some existing => existing.merge e.2
            | none => e.2) := by
        simp [MarketCache.updatePartial]
      rw [h1]
      have h2 : statesFor e.1 (e :: es) = e.2 :: statesFor e.1 es := by
        simp [statesFor, List.filter]
      rw [h2]
      cases hc : c e.1 <;> simp [mergeInto]
    · have h1 : (c.updatePartial e.1 e.2) k = c k := by
        simp only [MarketCache.updatePartial]
        rw [if_neg (fun hk => h hk.symm)]
      have h2 : statesFor k (e :: es) = statesFor k es := by
        simp [statesFor, List.filter, h]
      rw [h1, h2]

/-- C1: for every key k and every sequence of partial MarketState updates
applied to the cache via update_partial (the worker's `insert` path), the
cached state for k has best_bid equal to the most recent update for k in which
best_bid was present, and likewise for best_ask and volume24h; in particular a
present field is never overwritten by an absent one on this path. -/
theorem claim_C1 (events : List (MarketKey × MarketState)) (k : MarketKey)
    (st : MarketState) (h : applyEvents events emptyCache k = some st) :
    st.best_bid = lastPresent MarketState.best_bid (statesFor k events) ∧
    st.best_ask = lastPresent MarketState.best_ask (statesFor k events) ∧
    st.volume24h = lastPresent MarketState.volume24h (statesFor k events) := by
  rw [applyEvents_get] at h
  have hempty : emptyCache k = none := rfl
  rw [hempty] at h
  cases hus : statesFor k events with
  | nil => rw [hus, mergeInto_nil] at h; exact absurd h (by simp)
  | cons u us =>
    rw [hus] at h
    have hm : mergeInto (some u) us = some st := h
    rw [mergeInto_some, Option.some_inj] at hm
    subst hm
    refine ⟨?_, ?_, ?_⟩
    · rw [mergeAll_field MarketState.best_bid merge_bid us u]
      rfl
    · rw [mergeAll_field MarketState.best_ask merge_ask us u]
      rfl
    · rw [mergeAll_field MarketState.volume24h merge_vol us u]
      rfl

/-- C1 witness: two updates to one key, the second carrying only best_ask; the
cached entry keeps the first update's bid and gains the second's ask. -/
theorem claim_C1_witness :
    let k : MarketKey := (Venue.Polymarket, "tok")
    let events : List (MarketKey × MarketState) :=
      [(k, ⟨some 0.6, none, none⟩), (k, ⟨none, some 0.7, none⟩)]
    let st : MarketState := ⟨some 0.6, some 0.7, none⟩
    st.best_bid = lastPresent MarketState.best_bid (statesFor k events) ∧
    st.best_ask = lastPresent MarketState.best_ask (statesFor k events) ∧
    st.volume24h = lastPresent MarketState.volume24h (statesFor k events) :=
  claim_C1 _ _ _ rfl

/-- Modelled from the spec: MarketInfo (spec section 3, data model). The struct
is built by the adapter at startup; the src snapshot only consumes it (through
`MarketMap` in `src/strategy/arbitrage.rs`), its definition is not among the
repository's files. Fields follow the spec's table: question text,
yes_token_id, no_token_id, neg_risk flag. -/
structure MarketInfo where
  question : String
  yes_token_id : String
  no_token_id : String
  neg_risk : Bool
deriving DecidableEq

/-- EvalContext from `src/strategy/traits.rs`: the context handed to
strategies on each cache update. MarketMap and TokenToMarket (spec section 3:
immutable `market_id → MarketInfo` and `token_id → market_id` maps) are
embedded as functions into Option. -/
structure EvalContext where
  updated_key : MarketKey
  updated_state : MarketState
  cache : MarketCache
  market_map : String → Option MarketInfo
  token_to_market : String → Option String
  ws_received_at : Option Nat

/-- SignalLeg from `src/strategy/traits.rs`. -/
structure SignalLeg where
  token_id : String
  side : Side
  price : ℚ
  size : ℚ
deriving DecidableEq

/-- TradeSignal from `src/strategy/traits.rs`, restricted to the fields the
arbitrage strategy's constructor in `src/strategy/arbitrage.rs` sets;
generated_at (an `Instant::now()` read) is embedded as a `Nat` clock value. -/
structure TradeSignal where
  strategy_name : String
  venue : Venue
  market_id : String
  legs : List SignalLeg
  edge : ℚ
  generated_at : Nat
deriving DecidableEq

/-- A signal with its generated_at clock read erased (set to 0), for stating
determinism of every other field. -/
def TradeSignal.eraseTime (sig : TradeSignal) : TradeSignal :=
  { sig with generated_at := 0 }

/-- ArbitrageStrategy from `src/strategy/arbitrage.rs`. -/
structure ArbitrageStrategy where
  min_edge : ℚ
  default_size : ℚ

/-- ArbitrageStrategy::evaluate from `src/strategy/arbitrage.rs`. The `?`
chains become nested matches; `Instant::now()` becomes the explicit clock
argument `now`. -/
def ArbitrageStrategy.evaluate (s : ArbitrageStrategy) (ctx : EvalContext)
    (now : Nat) : Option TradeSignal :=
  match ctx.token_to_market ctx.updated_key.2 with
  | none => none
  | some market_id =>
    match ctx.market_map market_id with
    | none => none
    | some info =>
      match ctx.cache.get_market_state (ctx.updated_key.1, info.yes_token_id),
            ctx.cache.get_market_state (ctx.updated_key.1, info.no_token_id) with
      | some yes_state, some no_state =>
        match yes_state.best_bid, no_state.best_bid,
              yes_state.best_ask, no_state.best_ask with
        | some yes_bid, some no_bid, some yes_ask, some no_ask =>
          if yes_bid + no_bid - 1 ≥ s.min_edge then
            some { strategy_name := "arbitrage"
                   venue := ctx.updated_key.1
                   market_id := market_id
                   legs := [⟨info.yes_token_id, Side.Sell, yes_bid, s.default_size⟩,
                            ⟨info.no_token_id, Side.Sell, no_bid, s.default_size⟩]
                   edge := yes_bid + no_bid - 1
                   generated_at := now }
          else if 1 - (yes_ask + no_ask) ≥ s.min_edge then
            some { strategy_name := "arbitrage"
                   venue := ctx.updated_key.1
                   market_id := market_id
                   legs := [⟨info.yes_token_id, Side.Buy, yes_ask, s.default_size⟩,
                            ⟨info.no_token_id, Side.Buy, no_ask, s.default_size⟩]
                   edge := 1 - (yes_ask + no_ask)
                   generated_at := now }
          else none
        | _, _, _, _ => none
      | _, _ => none

/-- The arbitrage evaluation as the claim words it (spec section 4.6): resolve
the market, bail to None if either token's state or any of the four prices is
absent from the cache, otherwise sell-arb at the bids when its edge clears
min_edge, otherwise buy-arb at the asks, otherwise None. Stated over the same
data model, for comparison with the source's evaluate. -/
def arbSpecExpected (s : ArbitrageStrategy) (ctx : EvalContext)
    (now : Nat) : Option TradeSignal :=
  match ctx.token_to_market ctx.updated_key.2 with
  | none => none
  | some market_id =>
    match ctx.market_map market_id with
    | none => none
    | some info =>
      match (ctx.cache.get_market_state (ctx.updated_key.1, info.yes_token_id)).bind
              MarketState.best_bid,
            (ctx.cache.get_market_state (ctx.updated_key.1, info.no_token_id)).bind
              MarketState.best_bid,
            (ctx.cache.get_market_state (ctx.updated_key.1, info.yes_token_id)).bind
              MarketState.best_ask,
            (ctx.cache.get_market_state (ctx.updated_key.1, info.no_token_id)).bind
              MarketState.best_ask with
      | some yes_bid, some no_bid, some yes_ask, some no_ask =>
        if yes_bid + no_bid - 1 ≥ s.min_edge then
          some { strategy_name := "arbitrage"
                 venue := ctx.updated_key.1
                 market_id := market_id
                 legs := [⟨info.yes_token_id, Side.Sell, yes_bid, s.default_size⟩,
                          ⟨info.no_token_id, Side.Sell, no_bid, s.default_size⟩]
                 edge := yes_bid + no_bid - 1
                 generated_at := now }
        else if 1 - (yes_ask + no_ask) ≥ s.min_edge then
          some { strategy_name := "arbitrage"
                 venue := ctx.updated_key.1
                 market_id := market_id
                 legs := [⟨info.yes_token_id, Side.Buy, yes_ask, s.default_size⟩,
                          ⟨info.no_token_id, Side.Buy, no_ask, s.default_size⟩]
                 edge := 1 - (yes_ask + no_ask)
                 generated_at := now }
        else none
      | _, _, _, _ => none

/-- C3: ArbitrageStrategy::evaluate behaves exactly as the claim describes:
None whenever the yes-token state, the no-token state, or any of the four
prices is absent from the cache; otherwise a Sell/Sell signal at the bids when
yes_bid + no_bid - 1 clears min_edge (sell-arb precedence); otherwise a
Buy/Buy signal at the asks when 1 - (yes_ask + no_ask) clears min_edge;
otherwise None. -/
theorem claim_C3 (s : ArbitrageStrategy) (ctx : EvalContext) (now : Nat) :
    ArbitrageStrategy.evaluate s ctx now = arbSpecExpected s ctx now := by
  cases h1 : ctx.token_to_market ctx.updated_key.2 with
  | none => simp [ArbitrageStrategy.evaluate, arbSpecExpected, h1]
  | some market_id =>
    cases h2 : ctx.market_map market_id with
    | none => simp [ArbitrageStrategy.evaluate, arbSpecExpected, h1, h2]
    | some info =>
      cases h3 : ctx.cache.get_market_state (ctx.updated_key.1, info.yes_token_id) with
      | none => simp [ArbitrageStrategy.evaluate, arbSpecExpected, h1, h2, h3]
      | some yes_state =>
        cases h4 : ctx.cache.get_market_state (ctx.updated_key.1, info.no_token_id) with
        | none => simp [ArbitrageStrategy.evaluate, arbSpecExpected, h1, h2, h3, h4]
        | some no_state =>
          cases hb1 : yes_state.best_bid <;> cases hb2 : no_state.best_bid <;>
            cases ha1 : yes_state.best_ask <;> cases ha2 : no_state.best_ask <;>
            simp [ArbitrageStrategy.evaluate, arbSpecExpected,
              h1, h2, h3, h4, hb1, hb2, ha1, ha2]

/-- Scenario S1 configuration: min_edge 0.01, default_size 5.0. -/
def s1Strategy : ArbitrageStrategy := ⟨0.01, 5⟩

/-- Scenario S1 market metadata: one market m1 with yes/no outcome tokens. -/
def s1MarketMap : String → Option MarketInfo :=
  fun id => if id = "m1" then some ⟨"will it settle yes", "yes", "no", false⟩ else none

/-- Scenario S1 reverse lookup from token id to market id. -/
def s1TokenToMarket : String → Option String :=
  fun t => if t = "yes" then some "m1" else if t = "no" then some "m1" else none

/-- Scenario S1 events exactly as the spec injects them: yes-token
best_bid 0.60 and no-token best_bid 0.45, no other fields. -/
def s1Events : List (MarketKey × MarketState) :=
  [((Venue.Polymarket, "yes"), ⟨some 0.6, none, none⟩),
   ((Venue.Polymarket, "no"), ⟨some 0.45, none, none⟩)]

/-- The cache after scenario S1's two events. -/
def s1Cache : MarketCache := applyEvents s1Events emptyCache

/-- The evaluation context after scenario S1's second event. -/
def s1Ctx : EvalContext :=
  { updated_key := (Venue.Polymarket, "no")
    updated_state := ⟨some 0.45, none, none⟩
    cache := s1Cache
    market_map := s1MarketMap
    token_to_market := s1TokenToMarket
    ws_received_at := none }

/-- Scenario S1 events amended so that both asks are also present
(yes_ask 0.70, no_ask 0.40); the bids are unchanged. -/
def s1EventsFull : List (MarketKey × MarketState) :=
  [((Venue.Polymarket, "yes"), ⟨some 0.6, some 0.7, none⟩),
   ((Venue.Polymarket, "no"), ⟨some 0.45, some 0.4, none⟩)]

/-- The cache after the amended events. -/
def s1CacheFull : MarketCache := applyEvents s1EventsFull emptyCache

/-- The evaluation context after the amended second event. -/
def s1CtxFull : EvalContext :=
  { updated_key := (Venue.Polymarket, "no")
    updated_state := ⟨some 0.45, some 0.4, none⟩
    cache := s1CacheFull
    market_map := s1MarketMap
    token_to_market := s1TokenToMarket
    ws_received_at := none }

lemma s1_eval_full (now : Nat) :
    ArbitrageStrategy.evaluate s1Strategy s1CtxFull now =
      some { strategy_name := "arbitrage"
             venue := Venue.Polymarket
             market_id := "m1"
             legs := [⟨"yes", Side.Sell, 0.6, 5⟩, ⟨"no", Side.Sell, 0.45, 5⟩]
             edge := 0.05
             generated_at := now } := by
  have hy : s1CtxFull.cache.get_market_state (Venue.Polymarket, "yes") =
      some ⟨some 0.6, some 0.7, none⟩ := rfl
  have hn : s1CtxFull.cache.get_market_state (Venue.Polymarket, "no") =
      some ⟨some 0.45, some 0.4, none⟩ := rfl
  have ht : s1CtxFull.token_to_market "no" = some "m1" := rfl
  have hm : s1CtxFull.market_map "m1" =
      some ⟨"will it settle yes", "yes", "no", false⟩ := rfl
  have hk : s1CtxFull.updated_key = (Venue.Polymarket, "no") := rfl
  rw [ArbitrageStrategy.evaluate, hk]
  norm_num [ht, hm, hy, hn, s1Strategy]

/-- C4 counterexample: with only the two bid-carrying events of scenario S1 in
the cache, evaluate returns None (the asks are absent and the source bails on
any missing price), not the sell-arb signal the claim expects. -/
theorem claim_C4_counterexample :
    ArbitrageStrategy.evaluate s1Strategy s1Ctx 0 = none := rfl

/-- C4 amended: once both events also carry an ask (so no price is absent),
evaluating after the two S1 events yields exactly the claimed signal: strategy
name arbitrage, two Sell legs priced 0.60 and 0.45 of size 5.0, edge 0.05. -/
theorem claim_C4 :
    ArbitrageStrategy.evaluate s1Strategy s1CtxFull 0 =
      some { strategy_name := "arbitrage"
             venue := Venue.Polymarket
             market_id := "m1"
             legs := [⟨"yes", Side.Sell, 0.6, 5⟩, ⟨"no", Side.Sell, 0.45, 5⟩]
             edge := 0.05
             generated_at := 0 } :=
  s1_eval_full 0

/-- C8 counterexample: evaluate reads the clock (Instant::now) for the
generated_at field of an emitted signal, so two invocations on identical
inputs (key, cache contents, market_map, token_to_market) at different
instants do not produce identical output. -/
theorem claim_C8_counterexample :
    ArbitrageStrategy.evaluate s1Strategy s1CtxFull 0 ≠
      ArbitrageStrategy.evaluate s1Strategy s1CtxFull 1 := by
  rw [s1_eval_full 0, s1_eval_full 1]
  simp

/-- C8 amended: for identical inputs the two invocations agree on everything
except the generated_at clock read: erasing generated_at, the output of
evaluate is a function of (key, cache contents, market_map, token_to_market)
alone, whatever the clock says. -/
theorem claim_C8 (s : ArbitrageStrategy) (ctx : EvalContext) (n₁ n₂ : Nat) :
    (ArbitrageStrategy.evaluate s ctx n₁).map TradeSignal.eraseTime =
      (ArbitrageStrategy.evaluate s ctx n₂).map TradeSignal.eraseTime := by
  cases h1 : ctx.token_to_market ctx.updated_key.2 with
  | none => simp [ArbitrageStrategy.evaluate, h1]
  | some market_id =>
    cases h2 : ctx.market_map market_id with
    | none => simp [ArbitrageStrategy.evaluate, h1, h2]
    | some info =>
      cases h3 : ctx.cache.get_market_state (ctx.updated_key.1, info.yes_token_id) with
      | none => simp [ArbitrageStrategy.evaluate, h1, h2, h3]
      | some yes_state =>
        cases h4 : ctx.cache.get_market_state (ctx.updated_key.1, info.no_token_id) with
        | none => simp [ArbitrageStrategy.evaluate, h1, h2, h3, h4]
        | some no_state =>
          cases hb1 : yes_state.best_bid with
          | none => simp [ArbitrageStrategy.evaluate, h1, h2, h3, h4, hb1]
          | some yes_bid =>
            cases hb2 : no_state.best_bid with
            | none => simp [ArbitrageStrategy.evaluate, h1, h2, h3, h4, hb1, hb2]
            | some no_bid =>
              cases ha1 : yes_state.best_ask with
              | none =>
                simp [ArbitrageStrategy.evaluate, h1, h2, h3, h4, hb1, hb2, ha1]
              | some yes_ask =>
                cases ha2 : no_state.best_ask with
                | none =>
                  simp [ArbitrageStrategy.evaluate,
                    h1, h2, h3, h4, hb1, hb2, ha1, ha2]
                | some no_ask =>
                  simp only [ArbitrageStrategy.evaluate,
                    h1, h2, h3, h4, hb1, hb2, ha1, ha2]
                  by_cases hc1 : yes_bid + no_bid - 1 ≥ s.min_edge
                  · simp [hc1, TradeSignal.eraseTime]
                  · by_cases hc2 : 1 - (yes_ask + no_ask) ≥ s.min_edge <;>
                      simp [hc1, hc2, TradeSignal.eraseTime]

/-- OrderLeg from `src/execution/traits.rs`. -/
structure OrderLeg where
  token_id : String
  side : Side
  price : ℚ
  size : ℚ
deriving DecidableEq

/-- ExecutionIntent from `src/execution/traits.rs` (created_at instant as
`Nat`; strategy_name as `String`). -/
structure ExecutionIntent where
  venue : Venue
  market_id : String
  strategy_name : String
  legs : List OrderLeg
  edge : ℚ
  neg_risk : Bool
  created_at : Nat
deriving DecidableEq

/-- LegFillStatus from `src/execution/traits.rs`. -/
inductive LegFillStatus
  | Filled (order_id : String) (avg_price : ℚ) (filled_size : ℚ)
  | Rejected (reason : String)
  | NotAttempted
deriving DecidableEq

/-- ExecutionReport from `src/execution/traits.rs`. -/
structure ExecutionReport where
  market_id : String
  strategy_name : String
  leg_results : List LegFillStatus
  completed_at : Nat
deriving DecidableEq

/-- Whether a leg result is a Filled variant (the matches! test used by
fully_filled). -/
def LegFillStatus.isFilled : LegFillStatus → Bool
  | .Filled _ _ _ => true
  | _ => false

/-- ExecutionReport::fully_filled from `src/execution/traits.rs`. -/
def ExecutionReport.fully_filled (r : ExecutionReport) : Bool :=
  r.leg_results.all LegFillStatus.isFilled

/-- The modulus of the source's u64 order-id counter. -/
def U64_MOD : Nat := 2 ^ 64

/-- The paper executor's per-leg loop from `src/execution/paper.rs`: every leg
fills at its requested price and size under the next id drawn from the
AtomicU64 counter, rendered with to_string as in the source. The counter is
threaded explicitly and reduced mod 2^64 at every use: fetch_add wraps on
overflow, so the id handed to a leg is the counter value as a u64 and the
stored counter becomes (value + 1) mod 2^64. -/
def paperLegResults : Nat → List OrderLeg → List LegFillStatus
  | _, [] => []
  | nextId, leg :: rest =>
    .Filled (toString (nextId % U64_MOD)) leg.price leg.size ::
      paperLegResults ((nextId + 1) % U64_MOD) rest

/-- PaperExecutor::execute from `src/execution/paper.rs`: the atomic order-id
counter and the completion instant are explicit arguments. -/
def PaperExecutor.execute (nextId : Nat) (intent : ExecutionIntent)
    (now : Nat) : ExecutionReport :=
  { market_id := intent.market_id
    strategy_name := intent.strategy_name
    leg_results := paperLegResults nextId intent.legs
    completed_at := now }

/-- Outcome of attempting one leg against the live venue, as the source
distinguishes them in `src/execution/live.rs`: create_order failure, a posted
order that fills, one the CLOB rejects, or a post_order transport error. -/
inductive LiveLegOutcome
  | createErr (msg : String)
  | postFill (order_id : String)
  | postReject (error_msg : String)
  | postErr (msg : String)

/-- The live executor's leg loop from `src/execution/live.rs`: legs are
attempted left to right (the venue's response to attempt number i is
`outcome i`); on the first non-filled outcome the leg is marked Rejected with
the source's reason string, every remaining leg is pushed as NotAttempted, and
the loop breaks. Decimal round-trips of price and size are embedded as exact. -/
def liveLegResults (outcome : Nat → LiveLegOutcome) :
    Nat → List OrderLeg → List LegFillStatus
  | _, [] => []
  | i, leg :: rest =>
    match outcome i with
    | .postFill oid => .Filled oid leg.price leg.size :: liveLegResults outcome (i + 1) rest
    | .createErr m =>
      .Rejected ("create_order failed: " ++ m) :: rest.map (fun _ => .NotAttempted)
    | .postReject m => .Rejected m :: rest.map (fun _ => .NotAttempted)
    | .postErr m =>
      .Rejected ("post_order failed: " ++ m) :: rest.map (fun _ => .NotAttempted)

/-- LiveExecutor::execute from `src/execution/live.rs`. -/
def LiveExecutor.execute (outcome : Nat → LiveLegOutcome)
    (intent : ExecutionIntent) (now : Nat) : ExecutionReport :=
  { market_id := intent.market_id
    strategy_name := intent.strategy_name
    leg_results := liveLegResults outcome 0 intent.legs
    completed_at := now }

/-- The fail-fast shape of a leg-result list: once a Rejected appears at index
i, every later index holds NotAttempted. -/
def failFast (rs : List LegFillStatus) : Prop :=
  ∀ i j reason, i < j → rs[i]? = some (.Rejected reason) → j < rs.length →
    rs[j]? = some .NotAttempted

lemma paperLegResults_get (legs : List OrderLeg) (nextId i : Nat) :
    (paperLegResults nextId legs)[i]? =
      (legs[i]?).map (fun leg =>
        LegFillStatus.Filled (toString ((nextId + i) % U64_MOD))
          leg.price leg.size) := by
  induction legs generalizing nextId i with
  | nil => simp [paperLegResults]
  | cons leg rest ih =>
    cases i with
    | zero => simp [paperLegResults]
    | succ i =>
      simp only [paperLegResults, List.getElem?_cons_succ, ih]
      have : ((nextId + 1) % U64_MOD + i) % U64_MOD =
          (nextId + (i + 1)) % U64_MOD := by
        rw [Nat.mod_add_mod]
        congr 1
        omega
      rw [this]

lemma paperLegResults_length (legs : List OrderLeg) (nextId : Nat) :
    (paperLegResults nextId legs).length = legs.length := by
  induction legs generalizing nextId with
  | nil => rfl
  | cons leg rest ih => simp [paperLegResults, ih]

lemma paperLegResults_no_reject (legs : List OrderLeg) (nextId i : Nat)
    (reason : String) :
    (paperLegResults nextId legs)[i]? ≠ some (.Rejected reason) := by
  rw [paperLegResults_get]
  cases legs[i]? <;> simp

lemma liveLegResults_length (legs : List OrderLeg)
    (outcome : Nat → LiveLegOutcome) (i : Nat) :
    (liveLegResults outcome i legs).length = legs.length := by
  induction legs generalizing i with
  | nil => rfl
  | cons leg rest ih =>
    cases h : outcome i <;> simp [liveLegResults, h, ih]

lemma liveLegResults_failFast (legs : List OrderLeg)
    (outcome : Nat → LiveLegOutcome) (idx : Nat) :
    failFast (liveLegResults outcome idx legs) := by
  induction legs generalizing idx with
  | nil => intro i j reason hij hi hj; simp [liveLegResults] at hi
  | cons leg rest ih =>
    intro i j reason hij hi hj
    cases h : outcome idx with
    | postFill oid =>
      rw [liveLegResults, h] at hi hj ⊢
      cases i with
      | zero => simp at hi
      | succ i =>
        cases j with
        | zero => omega
        | succ j =>
          simp only [List.getElem?_cons_succ] at hi ⊢
          simp only [List.length_cons] at hj
          exact ih (idx + 1) i j reason (by omega) hi (by omega)
    | createErr m =>
      rw [liveLegResults, h] at hi hj ⊢
      cases i with
      | zero =>
        cases j with
        | zero => omega
        | succ j =>
          simp only [List.length_cons, List.length_map] at hj
          simp only [List.getElem?_cons_succ, List.getElem?_map]
          rw [List.getElem?_eq_getElem (by omega)]
          rfl
      | succ i =>
        simp only [List.getElem?_cons_succ, List.getElem?_map] at hi
        cases hr : rest[i]? with
        | none => rw [hr] at hi; simp at hi
        | some x => rw [hr] at hi; simp at hi
    | postReject m =>
      rw [liveLegResults, h] at hi hj ⊢
      cases i with
      | zero =>
        cases j with
        | zero => omega
        | succ j =>
          simp only [List.length_cons, List.length_map] at hj
          simp only [List.getElem?_cons_succ, List.getElem?_map]
          rw [List.getElem?_eq_getElem (by omega)]
          rfl
      | succ i =>
        simp only [List.getElem?_cons_succ, List.getElem?_map] at hi
        cases hr : rest[i]? with
        | none => rw [hr] at hi; simp at hi
        | some x => rw [hr] at hi; simp at hi
    | postErr m =>
      rw [liveLegResults, h] at hi hj ⊢
      cases i with
      | zero =>
        cases j with
        | zero => omega
        | succ j =>
          simp only [List.length_cons, List.length_map] at hj
          simp only [List.getElem?_cons_succ, List.getElem?_map]
          rw [List.getElem?_eq_getElem (by omega)]
          rfl
      | succ i =>
        simp only [List.getElem?_cons_succ, List.getElem?_map] at hi
        cases hr : rest[i]? with
        | none => rw [hr] at hi; simp at hi
        | some x => rw [hr] at hi; simp at hi

/-- C2: for every ExecutionIntent and both executors (paper and live), the
report has exactly one leg result per intent leg, and once a Rejected appears
at index i every later index holds NotAttempted (fail-fast, left to right). -/
theorem claim_C2 :
    (∀ (nextId : Nat) (intent : ExecutionIntent) (now : Nat),
        (PaperExecutor.execute nextId intent now).leg_results.length =
          intent.legs.length) ∧
    (∀ (outcome : Nat → LiveLegOutcome) (intent : ExecutionIntent) (now : Nat),
        (LiveExecutor.execute outcome intent now).leg_results.length =
          intent.legs.length) ∧
    (∀ (nextId : Nat) (intent : ExecutionIntent) (now : Nat),
        failFast (PaperExecutor.execute nextId intent now).leg_results) ∧
    (∀ (outcome : Nat → LiveLegOutcome) (intent : ExecutionIntent) (now : Nat),
        failFast (LiveExecutor.execute outcome intent now).leg_results) := by
  refine ⟨?_, ?_, ?_, ?_⟩
  · intro nextId intent now
    exact paperLegResults_length intent.legs nextId
  · intro outcome intent now
    exact liveLegResults_length intent.legs outcome 0
  · intro nextId intent now i j reason hij hi hj
    exact absurd hi (paperLegResults_no_reject intent.legs nextId i reason)
  · intro outcome intent now
    exact liveLegResults_failFast intent.legs outcome 0

/-- An order leg used by concrete executor instances. -/
def sampleLeg : OrderLeg := ⟨"tok", Side.Sell, 0.5, 1⟩

/-- A two-leg intent whose venue stub rejects the first leg (scenario S6). -/
def s6Intent : ExecutionIntent :=
  { venue := Venue.Polymarket
    market_id := "m1"
    strategy_name := "arbitrage"
    legs := [sampleLeg, sampleLeg]
    edge := 0.05
    neg_risk := false
    created_at := 0 }

/-- C2 witness: a live execution whose first leg the venue rejects leaves the
second leg NotAttempted, by the fail-fast clause applied at i = 0, j = 1. -/
theorem claim_C2_witness :
    (LiveExecutor.execute (fun _ => .postReject "bad") s6Intent 0).leg_results[1]? =
      some .NotAttempted :=
  claim_C2.2.2.2 (fun _ => .postReject "bad") s6Intent 0 0 1 "bad"
    (by omega) rfl (by simp [LiveExecutor.execute, liveLegResults, s6Intent])

/-- The two-leg intent of scenario S5: prices 0.60 and 0.45, size 5.0. -/
def s5Intent : ExecutionIntent :=
  { venue := Venue.Polymarket
    market_id := "m1"
    strategy_name := "arbitrage"
    legs := [⟨"yes", Side.Sell, 0.6, 5⟩, ⟨"no", Side.Sell, 0.45, 5⟩]
    edge := 0.05
    neg_risk := false
    created_at := 0 }

lemma paperLegResults_all_filled (legs : List OrderLeg) (nextId : Nat) :
    (paperLegResults nextId legs).all LegFillStatus.isFilled = true := by
  induction legs generalizing nextId with
  | nil => rfl
  | cons leg rest ih =>
    simp only [paperLegResults, List.all_cons, ih, LegFillStatus.isFilled,
      Bool.and_true]

/-- C7 counterexample: the AtomicU64 counter wraps on fetch_add overflow, so
a two-leg intent executed with the counter at 2^64 - 1 is filled with order
ids "18446744073709551615" and then "0" — the numeric order ids are not
strictly increasing across legs there, against the claim. -/
theorem claim_C7_counterexample :
    (PaperExecutor.execute (U64_MOD - 1) s6Intent 0).leg_results =
      [.Filled (toString (U64_MOD - 1)) 0.5 1, .Filled "0" 0.5 1] ∧
    ¬ ((U64_MOD - 1) % U64_MOD < (U64_MOD - 1 + 1) % U64_MOD) := by
  refine ⟨rfl, ?_⟩
  decide

/-- C7 amended: the paper executor fills every leg of every intent at its
requested price and size, with order id (nextId + i) mod 2^64 on leg i — the
u64 counter wraps on overflow, so the numeric order ids are strictly
increasing across the legs of an intent whenever the counter does not wrap
within it (nextId + last index < 2^64, true in particular for every intent
executed from the fresh counter short of 2^64 orders) — and fully_filled()
true on the report; in particular the two-leg S5 intent at prices 0.60 and
0.45, size 5.0, executed from the fresh counter, yields two Filled entries
with avg_price 0.60 and 0.45 and ids "1", "2". -/
theorem claim_C7 :
    (∀ (nextId : Nat) (intent : ExecutionIntent) (now : Nat) (i : Nat),
        (PaperExecutor.execute nextId intent now).leg_results[i]? =
          (intent.legs[i]?).map (fun leg =>
            LegFillStatus.Filled (toString ((nextId + i) % U64_MOD))
              leg.price leg.size)) ∧
    (∀ (nextId i j : Nat), i < j → nextId + j < U64_MOD →
        (nextId + i) % U64_MOD < (nextId + j) % U64_MOD) ∧
    (∀ (nextId : Nat) (intent : ExecutionIntent) (now : Nat),
        (PaperExecutor.execute nextId intent now).fully_filled = true) ∧
    PaperExecutor.execute 1 s5Intent 0 =
      { market_id := "m1"
        strategy_name := "arbitrage"
        leg_results := [.Filled "1" 0.6 5, .Filled "2" 0.45 5]
        completed_at := 0 } := by
  refine ⟨?_, ?_, ?_, ?_⟩
  · intro nextId intent now i
    exact paperLegResults_get intent.legs nextId i
  · intro nextId i j hij hlt
    rw [Nat.mod_eq_of_lt (by omega), Nat.mod_eq_of_lt hlt]
    omega
  · intro nextId intent now
    exact paperLegResults_all_filled intent.legs nextId
  · rfl

/-- C7 witness: the no-wrap order-id monotonicity clause applied to the two
legs of the concrete S5 execution ((1 + 0) mod 2^64 < (1 + 1) mod 2^64). -/
theorem claim_C7_witness : (1 + 0) % U64_MOD < (1 + 1) % U64_MOD :=
  claim_C7.2.1 1 0 1 (by omega) (by decide)

/-- MAX_WS_RECONNECT_ATTEMPTS from `src/market_data/adapters/polymarket.rs`. -/
def MAX_WS_RECONNECT_ATTEMPTS : Nat := 10

/-- INITIAL_BACKOFF_MS from `src/market_data/adapters/polymarket.rs`. -/
def INITIAL_BACKOFF_MS : Nat := 500

/-- MAX_BACKOFF_MS from `src/market_data/adapters/polymarket.rs`. -/
def MAX_BACKOFF_MS : Nat := 30000

/-- Result of one `MarketWsClient::subscribe` call in run_ws_loop. -/
inductive WsConnectResult
  | ok
  | failed
deriving DecidableEq

/-- What one iteration of run_ws_loop's connect phase does next. -/
inductive WsAction
  | subscribed
  | retryAfter (backoff_ms : Nat)
  | gaveUp
deriving DecidableEq

/-- One connect attempt of run_ws_loop from
`src/market_data/adapters/polymarket.rs` (lines 270-307): the counter is
incremented first; a successful subscribe resets it to 0; a failure returns
(give up) once the counter has reached MAX_WS_RECONNECT_ATTEMPTS and otherwise
sleeps min(INITIAL_BACKOFF_MS * 2^(attempt-1), MAX_BACKOFF_MS) milliseconds
(the u64 saturating_pow never saturates for attempt ≤ 10 and is embedded as
exact). Returns the action taken and the new counter value. -/
def wsConnectAttempt (attempt : Nat) (r : WsConnectResult) : WsAction × Nat :=
  let a := attempt + 1
  match r with
  | .ok => (.subscribed, 0)
  | .failed =>
    if MAX_WS_RECONNECT_ATTEMPTS ≤ a then (.gaveUp, a)
    else (.retryAfter (min (INITIAL_BACKOFF_MS * 2 ^ (a - 1)) MAX_BACKOFF_MS), a)

/-- The actions run_ws_loop's connect phase takes over a sequence of connect
outcomes, starting from a given counter value; the loop stops at gaveUp. -/
def wsTrace (attempt : Nat) : List WsConnectResult → List WsAction
  | [] => []
  | r :: rs =>
    match wsConnectAttempt attempt r with
    | (.gaveUp, _) => [.gaveUp]
    | (act, a) => act :: wsTrace a rs

/-- C5: in the reconnect loop, the k-th consecutive failed connect attempt
(counter k-1 before it) waits min(500 * 2^(k-1), 30000) ms while k < 10; the
failure that brings the counter to 10 makes the loop give up and exit; a
successful connect resets the counter to 0. Concretely, ten straight failures
from a fresh counter produce the geometric backoff schedule capped at 30000
and then GaveUp. -/
theorem claim_C5 :
    (∀ a, a + 1 < MAX_WS_RECONNECT_ATTEMPTS →
        wsConnectAttempt a .failed =
          (.retryAfter (min (INITIAL_BACKOFF_MS * 2 ^ (a + 1 - 1)) MAX_BACKOFF_MS),
            a + 1)) ∧
    (∀ a, MAX_WS_RECONNECT_ATTEMPTS ≤ a + 1 →
        wsConnectAttempt a .failed = (.gaveUp, a + 1)) ∧
    (∀ a, wsConnectAttempt a .ok = (.subscribed, 0)) ∧
    wsTrace 0 (List.replicate 10 .failed) =
      [.retryAfter 500, .retryAfter 1000, .retryAfter 2000, .retryAfter 4000,
       .retryAfter 8000, .retryAfter 16000, .retryAfter 30000, .retryAfter 30000,
       .retryAfter 30000, .gaveUp] := by
  refine ⟨?_, ?_, ?_, ?_⟩
  · intro a h
    simp only [wsConnectAttempt]
    rw [if_neg (fun hc => absurd h (Nat.not_lt.mpr hc))]
  · intro a h
    simp only [wsConnectAttempt]
    rw [if_pos h]
  · intro a
    rfl
  · rfl

/-- C5 witness: the third consecutive failure (counter 2) waits
min(500 * 2^2, 30000) = 2000 ms and moves the counter to 3. -/
theorem claim_C5_witness :
    wsConnectAttempt 2 .failed =
      (.retryAfter (min (INITIAL_BACKOFF_MS * 2 ^ (2 + 1 - 1)) MAX_BACKOFF_MS),
        2 + 1) :=
  claim_C5.1 2 (by decide)

/-- EligibleMarket from `src/market_data/adapters/polymarket.rs`: pre-parsed
market data produced by try_parse_eligible. -/
structure EligibleMarket where
  market_id : String
  question : String
  token_ids : List String
  volume : ℚ
  last_trade_price : Option ℚ
  liquidity : Option ℚ
  best_bid : Option ℚ
  best_ask : Option ℚ
deriving DecidableEq

/-- The warm-up work done for one eligible market in run_polymarket_adapter
(`src/market_data/adapters/polymarket.rs`, lines 194-248): take the market's
first token id (bail with a warning if there is none), call fetch_prices —
whose result the source binds to the unused `_prices` and discards — and then
build and send a Heartbeat event carrying the catalog snapshot fields,
whatever the fetch returned. `fetch` maps a token id to the REST result
(`none` models a failed buy or sell price fetch); `now` is the wall clock. -/
def warmupMarketEvent (em : EligibleMarket) (fetch : String → Option (ℚ × ℚ))
    (now : Nat) : Option MarketEvent :=
  match em.token_ids.head? with
  | none => none
  | some token_id =>
    let _prices := fetch token_id
    some { venue := Venue.Polymarket
           kind := MarketEventKind.Heartbeat
           market_id := em.market_id
           ts_exchange_ms := some now
           ts_receive_ms := none
           volume24h := some em.volume
           last_trade_price := em.last_trade_price
           liquidity := em.liquidity
           best_bid := em.best_bid
           best_ask := em.best_ask }

/-- An eligible market used to exercise the warm-up path. -/
def emSample : EligibleMarket :=
  { market_id := "m1"
    question := "will it settle yes"
    token_ids := ["t1", "t2"]
    volume := 123
    last_trade_price := some 0.5
    liquidity := some 20000
    best_bid := some 0.6
    best_ask := some 0.62 }

/-- C9 counterexample: a market whose REST price fetch fails (the fetch
returns none for every token) still gets a Heartbeat event during warm-up,
against the claim that a failed fetch produces no Heartbeat. -/
theorem claim_C9_counterexample :
    warmupMarketEvent emSample (fun _ => none) 0 ≠ none := by
  simp [warmupMarketEvent, emSample]

/-- C9 amended: during warm-up a Heartbeat is emitted for every eligible
market with at least one token id regardless of whether the REST price fetch
succeeds (its result is discarded, so a fetch failure neither aborts the
adapter nor suppresses the event), and the event carries the catalog snapshot
fields of the market, not the fetched prices. -/
theorem claim_C9 :
    (∀ (em : EligibleMarket) (f g : String → Option (ℚ × ℚ)) (now : Nat),
        warmupMarketEvent em f now = warmupMarketEvent em g now) ∧
    (∀ (em : EligibleMarket) (f : String → Option (ℚ × ℚ)) (now : Nat),
        em.token_ids ≠ [] →
        ∃ ev, warmupMarketEvent em f now = some ev ∧
          ev.kind = MarketEventKind.Heartbeat ∧
          ev.market_id = em.market_id ∧
          ev.volume24h = some em.volume ∧
          ev.last_trade_price = em.last_trade_price ∧
          ev.liquidity = em.liquidity ∧
          ev.best_bid = em.best_bid ∧
          ev.best_ask = em.best_ask) := by
  constructor
  · intro em f g now
    cases em.token_ids <;> rfl
  · intro em f now h
    cases hts : em.token_ids with
    | nil => exact absurd hts h
    | cons t ts =>
      have hev : warmupMarketEvent em f now = some
          { venue := Venue.Polymarket
            kind := MarketEventKind.Heartbeat
            market_id := em.market_id
            ts_exchange_ms := some now
            ts_receive_ms := none
            volume24h := some em.volume
            last_trade_price := em.last_trade_price
            liquidity := em.liquidity
            best_bid := em.best_bid
            best_ask := em.best_ask } := by
        simp [warmupMarketEvent, hts]
      exact ⟨_, hev, rfl, rfl, rfl, rfl, rfl, rfl, rfl⟩

/-- C9 witness: the amended guarantee applied to the concrete sample market
under an always-failing fetch. -/
theorem claim_C9_witness :
    ∃ ev, warmupMarketEvent emSample (fun _ => none) 0 = some ev ∧
      ev.kind = MarketEventKind.Heartbeat ∧
      ev.market_id = emSample.market_id ∧
      ev.volume24h = some emSample.volume ∧
      ev.last_trade_price = emSample.last_trade_price ∧
      ev.liquidity = emSample.liquidity ∧
      ev.best_bid = emSample.best_bid ∧
      ev.best_ask = emSample.best_ask :=
  claim_C9.2 emSample (fun _ => none) 0 (by simp [emSample])

/-- A one-entry cache fixture holding a present best_bid. -/
def c10Cache : MarketCache :=
  fun k => if k = (Venue.Polymarket, "tok") then some ⟨some 0.5, none, none⟩ else none

/-- C10: the public update_market_state replaces the whole entry for a key
with the given state — in particular it can overwrite a present field with an
absent one, as the concrete fixture shows — while the merge rule behind
update_partial keeps every field the incoming update leaves absent. -/
theorem claim_C10 :
    (∀ (c : MarketCache) (k : MarketKey) (s : MarketState),
        MarketCache.update_market_state c k s k = some s) ∧
    (∀ (c : MarketCache) (k : MarketKey) (u ex : MarketState),
        c k = some ex → MarketCache.updatePartial c k u k = some (ex.merge u)) ∧
    (∀ (ex u : MarketState), u.best_bid = none →
        (ex.merge u).best_bid = ex.best_bid) ∧
    (∀ (ex u : MarketState), u.best_ask = none →
        (ex.merge u).best_ask = ex.best_ask) ∧
    (∀ (ex u : MarketState), u.volume24h = none →
        (ex.merge u).volume24h = ex.volume24h) ∧
    (c10Cache (Venue.Polymarket, "tok") = some ⟨some 0.5, none, none⟩ ∧
      MarketCache.update_market_state c10Cache (Venue.Polymarket, "tok")
        ⟨none, none, none⟩ (Venue.Polymarket, "tok") = some ⟨none, none, none⟩) := by
  refine ⟨?_, ?_, ?_, ?_, ?_, ?_, ?_⟩
  · intro c k s
    simp [MarketCache.update_market_state]
  · intro c k u ex h
    simp [MarketCache.updatePartial, h]
  · intro ex u h
    simp [MarketState.merge, h]
  · intro ex u h
    simp [MarketState.merge, h]
  · intro ex u h
    simp [MarketState.merge, h]
  · rfl
  · rfl

/-- C10 witness: merging a partial update that carries only an ask into the
fixture entry keeps its present bid (the hypothesis-carrying merge clause at a
concrete cache and update). -/
theorem claim_C10_witness :
    MarketCache.updatePartial c10Cache (Venue.Polymarket, "tok")
      ⟨none, some 0.7, none⟩ (Venue.Polymarket, "tok") =
      some (MarketState.merge ⟨some 0.5, none, none⟩ ⟨none, some 0.7, none⟩) :=
  claim_C10.2.1 c10Cache (Venue.Polymarket, "tok") ⟨none, some 0.7, none⟩
    ⟨some 0.5, none, none⟩ rfl

/-- GammaMarket from the venue catalog (fields as `try_parse_eligible` in
`src/market_data/adapters/polymarket.rs` reads them). The raw JSON-string
fields are embedded by their parse outcomes: for clob_token_ids and
outcome_prices the outer Option is field presence (`as_deref()?`), the inner
Option is JSON-parse success, and each outcome-price entry is an Option ℚ (its
numeric parse result, filter_map dropping failures); `volume` likewise carries
presence and numeric-parse outcome. -/
structure GammaMarket where
  id : String
  question : String
  active : Bool
  closed : Bool
  archived : Bool
  clob_token_ids : Option (Option (List String))
  outcome_prices : Option (Option (List (Option ℚ)))
  volume : Option (Option ℚ)
  volume24hr : Option ℚ
  liquidity : Option (Option ℚ)
  liquidity_num : Option ℚ
  last_trade_price : Option ℚ
  best_bid : Option ℚ
  best_ask : Option ℚ

/-- try_parse_eligible from `src/market_data/adapters/polymarket.rs` (lines
38-92): parse and validate a GammaMarket in a single pass, following the
source's order of early returns; a malformed outcome_prices JSON array
defaults to the empty price list (unwrap_or_default), a malformed
clob_token_ids array rejects (.ok()?). -/
def try_parse_eligible (m : GammaMarket) : Option EligibleMarket :=
  if !m.active || m.closed || m.archived then none
  else
    match m.clob_token_ids with
    | none => none
    | some raw_ids =>
      match m.outcome_prices with
      | none => none
      | some raw_prices =>
        let prices : List ℚ := (raw_prices.map List.reduceOption).getD []
        if !prices.any (fun p => decide (p > (1e-6 : ℚ))) then none
        else
          match raw_ids with
          | none => none
          | some ids =>
            if ids.isEmpty then none
            else
              let volume24h := m.volume24hr.getD 0
              if volume24h < 100000 then none
              else
                let liquidity_val := m.liquidity_num.getD 0
                if liquidity_val < 10000 then none
                else
                  some { market_id := m.id
                         question := m.question
                         token_ids := ids
                         volume := (m.volume.getD (some 0)).getD 0
                         last_trade_price := m.last_trade_price
                         liquidity := m.liquidity.bind id
                         best_bid := m.best_bid
                         best_ask := m.best_ask }

/-- The eligibility test as one flat boolean, read off the source's early
returns: active, not closed, not archived, both raw fields present, some
parsed outcome price above 1e-6, a parseable non-empty token-id list, 24h
volume not below 100000 and liquidity not below 10000. -/
def eligibleCode (m : GammaMarket) : Bool :=
  m.active && !m.closed && !m.archived &&
  (match m.outcome_prices with
   | some raw_prices =>
     ((raw_prices.map List.reduceOption).getD []).any (fun p => decide (p > (1e-6 : ℚ)))
   | none => false) &&
  (match m.clob_token_ids with
   | some (some ids) => !ids.isEmpty
   | _ => false) &&
  !decide (m.volume24hr.getD 0 < 100000) &&
  !decide (m.liquidity_num.getD 0 < 10000)

/-- The eligibility predicate exactly as the claim words it: active, not
closed, not archived, both outcome token ids parseable and exactly two of
them, at least one outcome price strictly positive, 24h volume at least
100000, liquidity at least 10000. -/
def eligibleSpec (m : GammaMarket) : Bool :=
  m.active && !m.closed && !m.archived &&
  (match m.clob_token_ids with
   | some (some ids) => decide (ids.length = 2)
   | _ => false) &&
  (match m.outcome_prices with
   | some (some raw) => raw.reduceOption.any (fun p => decide (p > (0 : ℚ)))
   | _ => false) &&
  decide (m.volume24hr.getD 0 ≥ 100000) &&
  decide (m.liquidity_num.getD 0 ≥ 10000)

/-- A catalog market with a single (parseable) outcome token id that passes
every other check of the source. -/
def gmOneToken : GammaMarket :=
  { id := "m1"
    question := "will it settle yes"
    active := true
    closed := false
    archived := false
    clob_token_ids := some (some ["t1"])
    outcome_prices := some (some [some 0.5, some 0.5])
    volume := some (some 200000)
    volume24hr := some 200000
    liquidity := none
    liquidity_num := some 20000
    last_trade_price := none
    best_bid := none
    best_ask := none }

/-- C6 counterexample: the source admits gmOneToken (one token id), although
the claimed predicate, which demands exactly two token ids, rejects it. -/
theorem claim_C6_counterexample :
    (try_parse_eligible gmOneToken).isSome = true ∧
      eligibleSpec gmOneToken = false := by
  constructor
  · have : try_parse_eligible gmOneToken = some
        { market_id := "m1"
          question := "will it settle yes"
          token_ids := ["t1"]
          volume := 200000
          last_trade_price := none
          liquidity := none
          best_bid := none
          best_ask := none } := by
      norm_num [try_parse_eligible, gmOneToken]
    rw [this]
    rfl
  · rfl

/-- C6 amended: a catalog market is admitted by try_parse_eligible if and only
if it is active, not closed, not archived, both raw fields are present, at
least one parsed outcome price exceeds 1e-6, the token-id list parses and is
non-empty (any length at least one — not exactly two), its 24h volume is at
least 100000 and its liquidity at least 10000; markets failing any condition
are silently skipped (None). -/
theorem claim_C6 (m : GammaMarket) :
    (try_parse_eligible m).isSome = eligibleCode m := by
  cases ha : m.active with
  | false => simp [try_parse_eligible, eligibleCode, ha]
  | true =>
  cases hc : m.closed with
  | true => simp [try_parse_eligible, eligibleCode, ha, hc]
  | false =>
  cases har : m.archived with
  | true => simp [try_parse_eligible, eligibleCode, ha, hc, har]
  | false =>
  cases hI : m.clob_token_ids with
  | none => simp [try_parse_eligible, eligibleCode, ha, hc, har, hI]
  | some raw_ids =>
  cases hP : m.outcome_prices with
  | none => simp [try_parse_eligible, eligibleCode, ha, hc, har, hI, hP]
  | some raw_prices =>
  cases hAny : ((raw_prices.map List.reduceOption).getD []).any
      (fun p => decide (p > (1e-6 : ℚ))) with
  | false => simp [try_parse_eligible, eligibleCode, ha, hc, har, hI, hP, hAny]
  | true =>
  cases hIds : raw_ids with
  | none => simp [try_parse_eligible, eligibleCode, ha, hc, har, hI, hP, hAny, hIds]
  | some ids =>
  cases hE : ids.isEmpty with
  | true =>
    simp [try_parse_eligible, eligibleCode, ha, hc, har, hI, hP, hAny, hIds, hE]
  | false =>
  by_cases hV : m.volume24hr.getD 0 < 100000
  · simp [try_parse_eligible, eligibleCode, ha, hc, har, hI, hP, hAny, hIds, hE, hV]
  · by_cases hL : m.liquidity_num.getD 0 < 10000 <;>
      simp [try_parse_eligible, eligibleCode, ha, hc, har, hI, hP, hAny, hIds, hE,
        hV, hL]
